import Mathlib

set_option maxRecDepth 8000

/-!
Verification development for the galactic-eq repository.

The embedding covers the two sides of the binary wire protocol
(src/host/protocol.py and src/pico/protocol.py) and the three audio
analyzers (src/host/fft_processor.py, src/host/waveform_processor.py,
src/host/level_processor.py).

Modelling conventions:
- byte sequences are List Nat (each element a byte value),
- Python ints are Int (masking with 0xFF becomes mod 256),
- IEEE-754 doubles are idealized as exact rationals; the transcendental
  front ends (FFT magnitudes, log10, sqrt) enter each analyzer only
  through the per-band / per-channel dB vector, so the analyzers are
  embedded from that point on, taking the dB values as parameters.
-/

/-- XOR fold over a byte list, as both protocol files compute it
(chk starts at 0 and xors every byte in turn). -/
def xorBytes (l : List Nat) : Nat := l.foldl (fun a b => a ^^^ b) 0

namespace Host

/-- NUM_COLS from src/host/protocol.py. -/
def NUM_COLS : Nat := 53

/-- VU_FIELDS from src/host/protocol.py. -/
def VU_FIELDS : Nat := 4

/-- Python min(max(x, lo), hi) on ints. -/
def clampInt (lo hi x : Int) : Int := min (max x lo) hi

/-- Python (x & 0xFF) on an arbitrary int, i.e. mathematical mod 256. -/
def toByte (x : Int) : Nat := (x.emod 256).toNat

/-- The 113-byte body built by encode_packet (src/host/protocol.py):
header bytes, 53 clamped bar bytes, 53 clamped scope bytes (zeros when
scope_columns is None), 4 clamped VU bytes (zeros when vu is None). -/
def encodeBody (board_id frame brightness : Int) (columns : List Int)
    (scope_columns : Option (List Int)) (vu : Option (Int × Int × Int × Int)) :
    List Nat :=
  [toByte board_id, toByte frame, toByte brightness]
    ++ (List.range NUM_COLS).map (fun i => (clampInt 0 11 (columns.getD i 0)).toNat)
    ++ (match scope_columns with
        | none => List.replicate NUM_COLS 0
        | some sc => (List.range NUM_COLS).map
            (fun i => (clampInt 0 10 (sc.getD i 0)).toNat))
    ++ (match vu with
        | none => List.replicate VU_FIELDS 0
        | some (a, b, c, d) =>
            [a, b, c, d].map (fun v => (clampInt 0 (NUM_COLS : Int) v).toNat))

/-- encode_packet from src/host/protocol.py: sync marker, body, and the
XOR checksum of the body. -/
def encode_packet (board_id frame brightness : Int) (columns : List Int)
    (scope_columns : Option (List Int)) (vu : Option (Int × Int × Int × Int)) :
    List Nat :=
  let body := encodeBody board_id frame brightness columns scope_columns vu
  [0xAA, 0x55] ++ body ++ [xorBytes body]

theorem encodeBody_length (board_id frame brightness : Int) (columns : List Int)
    (scope_columns : Option (List Int)) (vu : Option (Int × Int × Int × Int)) :
    (encodeBody board_id frame brightness columns scope_columns vu).length = 113 := by
  unfold encodeBody
  rcases scope_columns with _ | sc <;> rcases vu with _ | ⟨a, b, c, d⟩ <;>
    simp [NUM_COLS, VU_FIELDS]

theorem encode_packet_length (board_id frame brightness : Int) (columns : List Int)
    (scope_columns : Option (List Int)) (vu : Option (Int × Int × Int × Int)) :
    (encode_packet board_id frame brightness columns scope_columns vu).length = 116 := by
  unfold encode_packet
  simp [encodeBody_length]

end Host

namespace Pico

/-- Constants from src/pico/protocol.py. -/
def SYNC_0 : Nat := 0xAA

def SYNC_1 : Nat := 0x55

def HEADER_SIZE : Nat := 3

def NUM_COLS : Nat := 53

/-- Body length after the sync marker: 56 bytes. -/
def PACKET_BODY : Nat := HEADER_SIZE + NUM_COLS

/-- Whole packet: 59 bytes. -/
def PACKET_TOTAL : Nat := 2 + PACKET_BODY + 1

/-- The dict returned by the pico decoder for one valid packet. -/
structure Frame where
  board_id : Nat
  frame : Nat
  brightness : Nat
  columns : List Nat
deriving DecidableEq, Repr

/-- validate_packet from src/pico/protocol.py: one-shot check of a
complete 59-byte datagram (length, sync marker, XOR checksum). -/
def validate_packet (data : List Nat) : Option Frame :=
  if data.length ≠ PACKET_TOTAL then none
  else if data.getD 0 0 ≠ SYNC_0 ∨ data.getD 1 0 ≠ SYNC_1 then none
  else
    let body := (data.drop 2).take PACKET_BODY
    let checksum := data.getD (2 + PACKET_BODY) 0
    if xorBytes body ≠ checksum then none
    else some ⟨body.getD 0 0, body.getD 1 0, body.getD 2 0,
               (body.drop HEADER_SIZE).take NUM_COLS⟩

/-- The three states of the PacketDecoder state machine. -/
inductive DState where
  | sync0 : DState
  | sync1 : DState
  | body : DState
deriving DecidableEq, Repr

/-- PacketDecoder state: current machine state plus the body bytes
accumulated so far (the Python fill cursor _pos is the buffer length). -/
structure Decoder where
  state : DState
  buf : List Nat
deriving DecidableEq, Repr

/-- A freshly constructed PacketDecoder. -/
def Decoder.init : Decoder := ⟨.sync0, []⟩

/-- One iteration of the loop body of PacketDecoder.feed for a single
byte: the state transitions of src/pico/protocol.py lines 47-72. -/
def feedByte (d : Decoder) (b : Nat) : Decoder × List Frame :=
  match d.state with
  | .sync0 =>
      (⟨if b = SYNC_0 then .sync1 else .sync0, d.buf⟩, [])
  | .sync1 =>
      if b = SYNC_1 then (⟨.body, []⟩, [])
      else if b = SYNC_0 then (d, [])
      else (⟨.sync0, d.buf⟩, [])
  | .body =>
      let buf := d.buf ++ [b]
      if buf.length = PACKET_BODY + 1 then
        if xorBytes (buf.take PACKET_BODY) = buf.getD PACKET_BODY 0 then
          (⟨.sync0, buf⟩,
           [⟨buf.getD 0 0, buf.getD 1 0, buf.getD 2 0,
             (buf.drop HEADER_SIZE).take NUM_COLS⟩])
        else (⟨.sync0, buf⟩, [])
      else (⟨.body, buf⟩, [])

/-- PacketDecoder.feed: iterate feedByte over the input, collecting the
decoded frames in order. -/
def feed (d : Decoder) : List Nat → Decoder × List Frame
  | [] => (d, [])
  | b :: rest =>
      let s := feedByte d b
      let t := feed s.1 rest
      (t.1, s.2 ++ t.2)

theorem feed_append (d : Decoder) (xs ys : List Nat) :
    feed d (xs ++ ys) =
      ((feed (feed d xs).1 ys).1, (feed d xs).2 ++ (feed (feed d xs).1 ys).2) := by
  induction xs generalizing d with
  | nil => simp [feed]
  | cons b rest ih => simp [feed, ih, List.append_assoc]

end Pico

/-- C6: the claim expects the 59-byte packet
AA 55 00 07 80, 53 zero bytes, checksum 0x87; the encoder in
src/host/protocol.py emits the 116-byte layout instead, so the outputs
differ (already in length). -/
theorem C6_counterexample_59_byte_output :
    Host.encode_packet 0 7 128 (List.replicate 53 0) none none ≠
      [0xAA, 0x55, 0x00, 0x07, 0x80] ++ List.replicate 53 0 ++ [0x87] := by
  decide

/-- C6 (amended): encoding (board_id 0, frame 7, brightness 128, all-zero
bars, no scope, no vu) yields the 116-byte sequence AA 55 00 07 80,
followed by 110 zero bytes (53 bars, 53 scope, 4 VU), followed by the
checksum byte 0x87. -/
theorem C6_encode_concrete_116 :
    Host.encode_packet 0 7 128 (List.replicate 53 0) none none =
      [0xAA, 0x55, 0x00, 0x07, 0x80] ++ List.replicate 110 0 ++ [0x87] := by
  decide

/-- C1: round-trip decode(encode(frame)) fails on the code: the host
encoder emits 116-byte packets while the pico decoder accepts only the
59-byte layout. validate_packet rejects every encoder output by length,
and the streaming decoder, fed the encoder output for the in-range frame
(board 0, seq 7, brightness 128, all-zero bars, no scope, no vu),
decodes no frame at all (its checksum test compares the XOR of the 56
bytes after the sync marker against the first scope byte). -/
theorem C1_roundtrip_broken :
    (∀ (board frame bright : Int) (cols : List Int)
       (scope : Option (List Int)) (vu : Option (Int × Int × Int × Int)),
       Pico.validate_packet (Host.encode_packet board frame bright cols scope vu)
         = none)
    ∧ (Pico.feed Pico.Decoder.init
        (Host.encode_packet 0 7 128 (List.replicate 53 0) none none)).2 = [] := by
  constructor
  · intro board frame bright cols scope vu
    have h := Host.encode_packet_length board frame bright cols scope vu
    unfold Pico.validate_packet
    rw [h]
    simp [Pico.PACKET_TOTAL, Pico.PACKET_BODY, Pico.HEADER_SIZE, Pico.NUM_COLS]
  · decide

namespace Pico

/-- True when no two adjacent bytes of the list form the sync pair
0xAA 0x55. -/
def noAA55 : List Nat → Bool
  | a :: b :: rest => (!(a == SYNC_0 && b == SYNC_1)) && noAA55 (b :: rest)
  | _ => true

theorem noAA55_head {b c : Nat} {t : List Nat}
    (h : noAA55 (b :: c :: t) = true) : ¬(b = SYNC_0 ∧ c = SYNC_1) := by
  simp only [noAA55, Bool.and_eq_true, Bool.not_eq_true', Bool.and_eq_false_iff,
    beq_eq_false_iff_ne, ne_eq] at h
  rcases h.1 with h1 | h1 <;> rintro ⟨rfl, rfl⟩ <;> exact h1 rfl

theorem noAA55_tail {b : Nat} {rest : List Nat}
    (h : noAA55 (b :: rest) = true) : noAA55 rest = true := by
  cases rest with
  | nil => rfl
  | cons c t =>
      simp only [noAA55, Bool.and_eq_true] at h
      exact h.2

/-- Feeding bytes that never contain an adjacent 0xAA 0x55 pair emits no
frame and leaves the decoder in AwaitSync0 or AwaitSync1. -/
theorem feed_garbage : ∀ (g : List Nat), noAA55 g = true → ∀ d : Decoder,
    (d.state = .sync0 ∨ (d.state = .sync1 ∧ g.head? ≠ some SYNC_1)) →
    (feed d g).2 = [] ∧
      ((feed d g).1.state = .sync0 ∨ (feed d g).1.state = .sync1) := by
  intro g
  induction g with
  | nil =>
      intro _ d hd
      refine ⟨rfl, ?_⟩
      rcases hd with h | ⟨h, _⟩
      · exact Or.inl h
      · exact Or.inr h
  | cons b rest ih =>
      intro hg d hd
      have hrest : noAA55 rest = true := noAA55_tail hg
      have hnext : b = SYNC_0 → rest.head? ≠ some SYNC_1 := by
        intro hb hcontra
        cases rest with
        | nil => simp at hcontra
        | cons c t =>
            simp only [List.head?_cons, Option.some.injEq] at hcontra
            exact noAA55_head hg ⟨hb, hcontra⟩
      obtain ⟨s, buf⟩ := d
      rcases hd with h0 | ⟨h1, hh⟩
      · simp only at h0
        subst h0
        by_cases hb : b = SYNC_0
        · have := ih hrest ⟨.sync1, buf⟩ (Or.inr ⟨rfl, hnext hb⟩)
          simpa [feed, feedByte, hb] using this
        · have := ih hrest ⟨.sync0, buf⟩ (Or.inl rfl)
          simpa [feed, feedByte, hb] using this
      · simp only at h1
        subst h1
        have hb55 : b ≠ SYNC_1 := by
          simp only [List.head?_cons, ne_eq, Option.some.injEq] at hh
          exact hh
        have hne : SYNC_0 ≠ SYNC_1 := by decide
        by_cases hbA : b = SYNC_0
        · have := ih hrest ⟨.sync1, buf⟩ (Or.inr ⟨rfl, hnext hbA⟩)
          simpa [feed, feedByte, hb55, hbA, hne] using this
        · have := ih hrest ⟨.sync0, buf⟩ (Or.inl rfl)
          simpa [feed, feedByte, hb55, hbA, hne] using this

/-- While the accumulated body stays short of the body length, bytes are
only appended and nothing is emitted. -/
theorem feed_body_fill : ∀ (bytes buf : List Nat),
    buf.length + bytes.length ≤ PACKET_BODY →
    feed ⟨.body, buf⟩ bytes = (⟨.body, buf ++ bytes⟩, []) := by
  intro bytes
  induction bytes with
  | nil => intro buf _; simp [feed]
  | cons b rest ih =>
      intro buf h
      simp only [List.length_cons] at h
      have hlt : buf.length ≠ PACKET_BODY := by omega
      have step : feedByte ⟨.body, buf⟩ b = (⟨.body, buf ++ [b]⟩, []) := by
        simp [feedByte, hlt]
      have tail := ih (buf ++ [b]) (by simp; omega)
      simp [feed, step, tail]

/-- From AwaitSync0 or AwaitSync1, a well-formed packet (sync marker,
56-byte body, matching XOR checksum) decodes to exactly one frame whose
fields are copied from the body. -/
theorem feed_packet (d : Decoder) (hd : d.state = .sync0 ∨ d.state = .sync1)
    (body : List Nat) (hlen : body.length = PACKET_BODY) (chk : Nat)
    (hchk : chk = xorBytes body) :
    feed d (SYNC_0 :: SYNC_1 :: (body ++ [chk])) =
      (⟨.sync0, body ++ [chk]⟩,
       [⟨body.getD 0 0, body.getD 1 0, body.getD 2 0,
         (body.drop HEADER_SIZE).take NUM_COLS⟩]) := by
  obtain ⟨s, buf⟩ := d
  have hsync : feedByte ⟨s, buf⟩ SYNC_0 = (⟨.sync1, buf⟩, []) := by
    rcases hd with h | h <;> simp only at h <;> subst h <;>
      simp [feedByte, SYNC_0, SYNC_1]
  have hsync2 : feedByte ⟨.sync1, buf⟩ SYNC_1 = (⟨.body, []⟩, []) := by
    simp [feedByte]
  have hfill : feed (⟨.body, []⟩ : Decoder) body = (⟨.body, body⟩, []) := by
    have := feed_body_fill body [] (by simp [hlen])
    simpa using this
  have hlast : feedByte ⟨.body, body⟩ chk =
      (⟨.sync0, body ++ [chk]⟩,
       [⟨body.getD 0 0, body.getD 1 0, body.getD 2 0,
         (body.drop HEADER_SIZE).take NUM_COLS⟩]) := by
    have hlen1 : (body ++ [chk]).length = PACKET_BODY + 1 := by simp [hlen]
    have htake : (body ++ [chk]).take PACKET_BODY = body := by
      rw [← hlen]; exact List.take_left body [chk]
    have hget : (body ++ [chk]).getD PACKET_BODY 0 = chk := by
      rw [← hlen]
      simp [List.getD_eq_getElem?_getD]
    have hxor : xorBytes ((body ++ [chk]).take PACKET_BODY)
        = (body ++ [chk]).getD PACKET_BODY 0 := by
      rw [htake, hget, hchk]
    have h3 : HEADER_SIZE ≤ body.length := by rw [hlen]; decide
    have hdrop : (body ++ [chk]).drop HEADER_SIZE = body.drop HEADER_SIZE ++ [chk] :=
      List.drop_append_of_le_length h3
    have hdlen : (body.drop HEADER_SIZE).length = NUM_COLS := by
      simp [hlen, PACKET_BODY, HEADER_SIZE, NUM_COLS]
    have htk : ((body ++ [chk]).drop HEADER_SIZE).take NUM_COLS
        = (body.drop HEADER_SIZE).take NUM_COLS := by
      rw [hdrop, List.take_left' hdlen, List.take_of_length_le (le_of_eq hdlen)]
    have hg0 : (body ++ [chk]).getD 0 0 = body.getD 0 0 :=
      List.getD_append body [chk] 0 0 (by rw [hlen]; decide)
    have hg1 : (body ++ [chk]).getD 1 0 = body.getD 1 0 :=
      List.getD_append body [chk] 0 1 (by rw [hlen]; decide)
    have hg2 : (body ++ [chk]).getD 2 0 = body.getD 2 0 :=
      List.getD_append body [chk] 0 2 (by rw [hlen]; decide)
    simp only [feedByte]
    rw [if_pos hlen1, if_pos hxor, hg0, hg1, hg2, htk]
  calc feed ⟨s, buf⟩ (SYNC_0 :: SYNC_1 :: (body ++ [chk]))
      = feed (⟨.body, []⟩ : Decoder) (body ++ [chk]) := by
        simp [feed, hsync, hsync2]
    _ = (⟨.sync0, body ++ [chk]⟩,
         [⟨body.getD 0 0, body.getD 1 0, body.getD 2 0,
           (body.drop HEADER_SIZE).take NUM_COLS⟩]) := by
        rw [feed_append, hfill]
        simp [feed, hlast]

end Pico

namespace Pico

/-- validate_packet accepts any 59-byte buffer with the sync marker and a
matching checksum and copies the body fields verbatim into the frame. -/
theorem validate_packet_eq (body : List Nat) (hlen : body.length = PACKET_BODY)
    (chk : Nat) (hchk : chk = xorBytes body) :
    validate_packet (SYNC_0 :: SYNC_1 :: (body ++ [chk])) =
      some ⟨body.getD 0 0, body.getD 1 0, body.getD 2 0,
            (body.drop HEADER_SIZE).take NUM_COLS⟩ := by
  have hdata_len : (SYNC_0 :: SYNC_1 :: (body ++ [chk])).length = PACKET_TOTAL := by
    simp only [List.length_cons, List.length_append, List.length_cons,
      List.length_nil, hlen, PACKET_TOTAL]
    omega
  have hdrop2 : (SYNC_0 :: SYNC_1 :: (body ++ [chk])).drop 2 = body ++ [chk] := rfl
  have htake : (body ++ [chk]).take PACKET_BODY = body := by
    rw [← hlen]; exact List.take_left body [chk]
  have hgetchk : (SYNC_0 :: SYNC_1 :: (body ++ [chk])).getD (2 + PACKET_BODY) 0
      = (body ++ [chk]).getD PACKET_BODY 0 := by
    rw [show 2 + PACKET_BODY = PACKET_BODY + 1 + 1 by omega]
    simp [List.getD_cons_succ]
  have hget : (body ++ [chk]).getD PACKET_BODY 0 = chk := by
    rw [← hlen]
    simp [List.getD_eq_getElem?_getD]
  unfold validate_packet
  rw [if_neg (by rw [hdata_len]; exact fun h => h rfl)]
  rw [if_neg (by simp [List.getD_cons_zero, List.getD_cons_succ])]
  simp only [hdrop2, htake, hgetchk, hget]
  rw [if_neg (by rw [← hchk]; exact fun h => h rfl)]

end Pico

/-- C2: any garbage with no adjacent 0xAA 0x55 pair followed by one
well-formed packet yields exactly one decoded frame, the garbage being
fully discarded; in AwaitSync1 a 0xAA byte keeps the decoder in
AwaitSync1 while any byte other than 0x55 or 0xAA returns it to
AwaitSync0; and the duplicated-sync stream AA AA 55 body checksum also
yields exactly that one frame. -/
theorem C2_resync_garbage_then_packet :
    (∀ (g body : List Nat) (chk : Nat),
       Pico.noAA55 g = true → body.length = Pico.PACKET_BODY →
       chk = xorBytes body →
       (Pico.feed Pico.Decoder.init
           (g ++ Pico.SYNC_0 :: Pico.SYNC_1 :: (body ++ [chk]))).2 =
         [⟨body.getD 0 0, body.getD 1 0, body.getD 2 0,
           (body.drop Pico.HEADER_SIZE).take Pico.NUM_COLS⟩])
    ∧ (∀ d : Pico.Decoder, d.state = .sync1 →
        (Pico.feedByte d 0xAA).1.state = .sync1 ∧
        ∀ b : Nat, b ≠ 0x55 → b ≠ 0xAA → (Pico.feedByte d b).1.state = .sync0)
    ∧ (∀ (body : List Nat) (chk : Nat),
       body.length = Pico.PACKET_BODY → chk = xorBytes body →
       (Pico.feed Pico.Decoder.init
           (0xAA :: 0xAA :: 0x55 :: (body ++ [chk]))).2 =
         [⟨body.getD 0 0, body.getD 1 0, body.getD 2 0,
           (body.drop Pico.HEADER_SIZE).take Pico.NUM_COLS⟩]) := by
  refine ⟨?_, ?_, ?_⟩
  · intro g body chk hg hlen hchk
    have hgar := Pico.feed_garbage g hg Pico.Decoder.init (Or.inl rfl)
    have hpkt := Pico.feed_packet (Pico.feed Pico.Decoder.init g).1 hgar.2
      body hlen chk hchk
    simp only [Pico.feed_append, hgar.1, hpkt, List.nil_append]
  · intro d hd
    obtain ⟨s, buf⟩ := d
    simp only at hd
    subst hd
    refine ⟨by simp [Pico.feedByte, Pico.SYNC_0, Pico.SYNC_1], ?_⟩
    intro b h55 hAA
    simp [Pico.feedByte, Pico.SYNC_0, Pico.SYNC_1, h55, hAA]
  · intro body chk hlen hchk
    have h1 : Pico.feed Pico.Decoder.init [0xAA] =
        (⟨.sync1, []⟩, []) := by decide
    have hpkt := Pico.feed_packet ⟨.sync1, []⟩ (Or.inr rfl) body hlen chk hchk
    have hsplit : (0xAA : Nat) :: 0xAA :: 0x55 :: (body ++ [chk])
        = [0xAA] ++ (Pico.SYNC_0 :: Pico.SYNC_1 :: (body ++ [chk])) := by
      simp [Pico.SYNC_0, Pico.SYNC_1]
    rw [hsplit, Pico.feed_append, h1]
    simp only [hpkt, List.nil_append]

/-- Witness for C2: garbage 01 AA 02 followed by a valid all-zero packet
decodes to exactly one all-zero frame. -/
theorem C2_resync_witness :
    (Pico.feed Pico.Decoder.init
        ([0x01, 0xAA, 0x02] ++ Pico.SYNC_0 :: Pico.SYNC_1 ::
          (List.replicate 56 0 ++ [0]))).2 =
      [⟨(List.replicate 56 0).getD 0 0, (List.replicate 56 0).getD 1 0,
        (List.replicate 56 0).getD 2 0,
        ((List.replicate 56 0).drop Pico.HEADER_SIZE).take Pico.NUM_COLS⟩] :=
  C2_resync_garbage_then_packet.1 [0x01, 0xAA, 0x02] (List.replicate 56 0) 0
    (by decide) (by decide) (by decide)

/-- C10: neither decoder checks field ranges: any 59-byte buffer with the
sync marker and a matching XOR checksum is accepted, and board_id, frame,
brightness and the 53 column bytes are copied verbatim from the buffer,
so column bytes above 11 (up to 255) pass through unchanged. -/
theorem C10_no_range_validation (body : List Nat) (chk : Nat)
    (hlen : body.length = Pico.PACKET_BODY) (hchk : chk = xorBytes body) :
    Pico.validate_packet (Pico.SYNC_0 :: Pico.SYNC_1 :: (body ++ [chk])) =
      some ⟨body.getD 0 0, body.getD 1 0, body.getD 2 0,
            (body.drop Pico.HEADER_SIZE).take Pico.NUM_COLS⟩
    ∧ (Pico.feed Pico.Decoder.init
        (Pico.SYNC_0 :: Pico.SYNC_1 :: (body ++ [chk]))).2 =
      [⟨body.getD 0 0, body.getD 1 0, body.getD 2 0,
        (body.drop Pico.HEADER_SIZE).take Pico.NUM_COLS⟩] := by
  refine ⟨Pico.validate_packet_eq body hlen chk hchk, ?_⟩
  have hpkt := Pico.feed_packet Pico.Decoder.init (Or.inl rfl) body hlen chk hchk
  rw [hpkt]

/-- Witness for C10: a packet whose first column byte is 255 (far above
the nominal maximum of 11) is accepted and delivered verbatim. -/
theorem C10_witness :
    Pico.validate_packet (Pico.SYNC_0 :: Pico.SYNC_1 ::
        (([1, 2, 3, 255] ++ List.replicate 52 0) ++ [255])) =
      some ⟨([1, 2, 3, 255] ++ List.replicate 52 0).getD 0 0,
            ([1, 2, 3, 255] ++ List.replicate 52 0).getD 1 0,
            ([1, 2, 3, 255] ++ List.replicate 52 0).getD 2 0,
            (([1, 2, 3, 255] ++ List.replicate 52 0).drop
              Pico.HEADER_SIZE).take Pico.NUM_COLS⟩ :=
  (C10_no_range_validation ([1, 2, 3, 255] ++ List.replicate 52 0) 255
    (by decide) (by decide)).1

namespace Host

theorem getD_map_range (f : Nat → Nat) (n i : Nat) (h : i < n) :
    ((List.range n).map f).getD i 0 = f i := by
  simp [List.getD_eq_getElem?_getD, List.getElem?_range, h]

theorem clampInt_toNat_le (hi : Nat) (x : Int) :
    (clampInt 0 (hi : Int) x).toNat ≤ hi := by
  unfold clampInt
  omega

theorem encodeBody_getD_bar (board_id frame brightness : Int) (columns : List Int)
    (scope_columns : Option (List Int)) (vu : Option (Int × Int × Int × Int))
    (i : Nat) (h : i < 53) :
    (encodeBody board_id frame brightness columns scope_columns vu).getD (3 + i) 0
      = (clampInt 0 11 (columns.getD i 0)).toNat := by
  unfold encodeBody
  simp only [List.append_assoc]
  rw [List.getD_append_right _ _ _ _ (by simp : ([toByte board_id, toByte frame,
    toByte brightness] : List Nat).length ≤ 3 + i)]
  simp only [List.length_cons, List.length_nil]
  rw [show 3 + i - (0 + 1 + 1 + 1) = i by omega]
  rw [List.getD_append _ _ _ _ (by simpa [NUM_COLS] using h)]
  exact getD_map_range _ _ _ (by simpa [NUM_COLS] using h)

theorem getD_replicate_zero (n i : Nat) :
    (List.replicate n (0 : Nat)).getD i 0 = 0 := by
  simp only [List.getD_eq_getElem?_getD, List.getElem?_replicate]
  split <;> simp

theorem encodeBody_getD_scope (board_id frame brightness : Int) (columns : List Int)
    (scope_columns : Option (List Int)) (vu : Option (Int × Int × Int × Int))
    (i : Nat) (h : i < 53) :
    (encodeBody board_id frame brightness columns scope_columns vu).getD (56 + i) 0
      = (match scope_columns with
         | none => 0
         | some sc => (clampInt 0 10 (sc.getD i 0)).toNat) := by
  unfold encodeBody
  simp only [List.append_assoc]
  rw [List.getD_append_right _ _ _ _ (by
    simp only [List.length_cons, List.length_nil]; omega : ([toByte board_id,
    toByte frame, toByte brightness] : List Nat).length ≤ 56 + i)]
  simp only [List.length_cons, List.length_nil]
  rw [show 56 + i - (0 + 1 + 1 + 1) = 53 + i by omega]
  rw [List.getD_append_right _ _ _ _ (by
    simp only [List.length_map, List.length_range, NUM_COLS]; omega : ((List.range
    NUM_COLS).map fun i => (clampInt 0 11 (columns.getD i 0)).toNat).length ≤ 53 + i)]
  simp only [List.length_map, List.length_range]
  rw [show 53 + i - NUM_COLS = i by simp [NUM_COLS]]
  rcases scope_columns with _ | sc
  · rw [List.getD_append _ _ _ _ (by
      simp only [List.length_replicate, NUM_COLS]; omega)]
    exact getD_replicate_zero _ _
  · rw [List.getD_append _ _ _ _ (by
      simp only [List.length_map, List.length_range, NUM_COLS]; omega)]
    exact getD_map_range _ _ _ (by simpa [NUM_COLS] using h)

theorem encodeBody_getD_vu (board_id frame brightness : Int) (columns : List Int)
    (scope_columns : Option (List Int)) (vu : Option (Int × Int × Int × Int))
    (i : Nat) (h : i < 4) :
    (encodeBody board_id frame brightness columns scope_columns vu).getD (109 + i) 0
      = (match vu with
         | none => 0
         | some (a, b, c, d) =>
             (clampInt 0 (NUM_COLS : Int) ([a, b, c, d].getD i 0)).toNat) := by
  unfold encodeBody
  simp only [List.append_assoc]
  rw [List.getD_append_right _ _ _ _ (by
    simp only [List.length_cons, List.length_nil]; omega : ([toByte board_id,
    toByte frame, toByte brightness] : List Nat).length ≤ 109 + i)]
  simp only [List.length_cons, List.length_nil]
  rw [show 109 + i - (0 + 1 + 1 + 1) = 106 + i by omega]
  rw [List.getD_append_right _ _ _ _ (by
    simp only [List.length_map, List.length_range, NUM_COLS]; omega : ((List.range
    NUM_COLS).map fun i => (clampInt 0 11 (columns.getD i 0)).toNat).length ≤ 106 + i)]
  simp only [List.length_map, List.length_range]
  rw [show 106 + i - NUM_COLS = 53 + i by simp only [NUM_COLS]; omega]
  have hsclen : (match scope_columns with
      | none => List.replicate NUM_COLS (0 : Nat)
      | some sc => (List.range NUM_COLS).map
          (fun i => (clampInt 0 10 (sc.getD i 0)).toNat)).length = 53 := by
    rcases scope_columns with _ | sc <;> simp [NUM_COLS]
  rw [List.getD_append_right _ _ _ _ (by rw [hsclen]; omega)]
  rw [hsclen, show 53 + i - 53 = i by omega]
  rcases vu with _ | ⟨a, b, c, d⟩
  · exact getD_replicate_zero _ _
  · rcases i with _ | _ | _ | _ | i
    · simp
    · simp
    · simp
    · simp
    · omega

theorem encode_packet_getD_body (board_id frame brightness : Int)
    (columns : List Int) (scope_columns : Option (List Int))
    (vu : Option (Int × Int × Int × Int)) (j : Nat) (hj : j < 113) :
    (encode_packet board_id frame brightness columns scope_columns vu).getD (2 + j) 0
      = (encodeBody board_id frame brightness columns scope_columns vu).getD j 0 := by
  simp only [encode_packet]
  rw [List.getD_append _ _ _ _ (by
    simp only [List.length_append, List.length_cons, List.length_nil,
      encodeBody_length]
    omega)]
  rw [List.getD_append_right _ _ _ _ (by
    simp only [List.length_cons, List.length_nil]; omega)]
  simp only [List.length_cons, List.length_nil]
  rw [show 2 + j - (0 + 1 + 1) = j by omega]

theorem encode_packet_getD_checksum (board_id frame brightness : Int)
    (columns : List Int) (scope_columns : Option (List Int))
    (vu : Option (Int × Int × Int × Int)) :
    (encode_packet board_id frame brightness columns scope_columns vu).getD 115 0
      = xorBytes (encodeBody board_id frame brightness columns scope_columns vu) := by
  simp only [encode_packet]
  rw [List.getD_append_right _ _ _ _ (by
    simp only [List.length_append, List.length_cons, List.length_nil,
      encodeBody_length]
    omega)]
  simp only [List.length_append, List.length_cons, List.length_nil,
    encodeBody_length]
  rw [show 115 - (0 + 1 + 1 + 113) = 0 by omega]
  rfl

theorem encode_packet_body_slice (board_id frame brightness : Int)
    (columns : List Int) (scope_columns : Option (List Int))
    (vu : Option (Int × Int × Int × Int)) :
    ((encode_packet board_id frame brightness columns scope_columns vu).drop 2).take 113
      = encodeBody board_id frame brightness columns scope_columns vu := by
  simp only [encode_packet, List.append_assoc, List.cons_append, List.nil_append]
  rw [show (((0xAA : Nat) :: 0x55 :: (encodeBody board_id frame brightness columns
    scope_columns vu ++ [xorBytes (encodeBody board_id frame brightness columns
    scope_columns vu)])).drop 2)
    = encodeBody board_id frame brightness columns scope_columns vu
      ++ [xorBytes (encodeBody board_id frame brightness columns scope_columns vu)]
    from rfl]
  exact List.take_left' (encodeBody_length _ _ _ _ _ _)

theorem clampInt_toNat_le' (hi : Int) (n : Nat) (hn : hi ≤ (n : Int)) (x : Int) :
    (clampInt 0 hi x).toNat ≤ n := by
  unfold clampInt
  omega

theorem encodeBody_getD_hdr (board_id frame brightness : Int) (columns : List Int)
    (scope_columns : Option (List Int)) (vu : Option (Int × Int × Int × Int)) :
    (encodeBody board_id frame brightness columns scope_columns vu).getD 0 0
        = toByte board_id
    ∧ (encodeBody board_id frame brightness columns scope_columns vu).getD 1 0
        = toByte frame
    ∧ (encodeBody board_id frame brightness columns scope_columns vu).getD 2 0
        = toByte brightness := by
  unfold encodeBody
  simp only [List.append_assoc, List.cons_append, List.nil_append]
  exact ⟨rfl, rfl, rfl⟩

end Host

/-- C3: encode_packet always emits exactly 116 bytes: sync marker AA 55,
the three header bytes (masked to one byte each), 53 bar bytes clamped
into 0..11, 53 scope bytes clamped into 0..10 (all zero when
scope_columns is None), 4 VU bytes clamped into 0..53 (all zero when vu
is None), and a final checksum byte equal to the XOR of bytes 2..114, so
no caller value can place an out-of-range byte in the packet. -/
theorem C3_encode_packet_layout (board_id frame brightness : Int)
    (columns : List Int) (scope_columns : Option (List Int))
    (vu : Option (Int × Int × Int × Int))
    (hc : 53 ≤ columns.length)
    (hsc : ∀ sc, scope_columns = some sc → 53 ≤ sc.length) :
    (Host.encode_packet board_id frame brightness columns scope_columns vu).length = 116
    ∧ (Host.encode_packet board_id frame brightness columns scope_columns vu).getD 0 0
        = 0xAA
    ∧ (Host.encode_packet board_id frame brightness columns scope_columns vu).getD 1 0
        = 0x55
    ∧ ((Host.encode_packet board_id frame brightness columns scope_columns vu).getD 2 0
          = Host.toByte board_id
       ∧ (Host.encode_packet board_id frame brightness columns scope_columns vu).getD 3 0
          = Host.toByte frame
       ∧ (Host.encode_packet board_id frame brightness columns scope_columns vu).getD 4 0
          = Host.toByte brightness)
    ∧ (∀ i, i < 53 →
        (Host.encode_packet board_id frame brightness columns scope_columns vu).getD
            (5 + i) 0
          = (Host.clampInt 0 11 (columns.getD i 0)).toNat
        ∧ (Host.encode_packet board_id frame brightness columns scope_columns vu).getD
            (5 + i) 0 ≤ 11)
    ∧ (∀ i, i < 53 →
        (Host.encode_packet board_id frame brightness columns scope_columns vu).getD
            (58 + i) 0 ≤ 10
        ∧ (scope_columns = none →
           (Host.encode_packet board_id frame brightness columns scope_columns vu).getD
              (58 + i) 0 = 0))
    ∧ (∀ i, i < 4 →
        (Host.encode_packet board_id frame brightness columns scope_columns vu).getD
            (111 + i) 0 ≤ 53
        ∧ (vu = none →
           (Host.encode_packet board_id frame brightness columns scope_columns vu).getD
              (111 + i) 0 = 0))
    ∧ (Host.encode_packet board_id frame brightness columns scope_columns vu).getD 115 0
        = xorBytes (((Host.encode_packet board_id frame brightness columns
            scope_columns vu).drop 2).take 113) := by
  refine ⟨Host.encode_packet_length _ _ _ _ _ _, rfl, rfl, ?_, ?_, ?_, ?_, ?_⟩
  · have h0 := Host.encode_packet_getD_body board_id frame brightness columns
      scope_columns vu 0 (by omega)
    have h1 := Host.encode_packet_getD_body board_id frame brightness columns
      scope_columns vu 1 (by omega)
    have h2 := Host.encode_packet_getD_body board_id frame brightness columns
      scope_columns vu 2 (by omega)
    have hh := Host.encodeBody_getD_hdr board_id frame brightness columns
      scope_columns vu
    refine ⟨?_, ?_, ?_⟩
    · rw [show (2 : Nat) = 2 + 0 by omega] at h0 ⊢
      rw [h0]; exact hh.1
    · rw [show (3 : Nat) = 2 + 1 by omega, h1]; exact hh.2.1
    · rw [show (4 : Nat) = 2 + 2 by omega, h2]; exact hh.2.2
  · intro i hi
    have hb := Host.encode_packet_getD_body board_id frame brightness columns
      scope_columns vu (3 + i) (by omega)
    have hv := Host.encodeBody_getD_bar board_id frame brightness columns
      scope_columns vu i hi
    rw [show 5 + i = 2 + (3 + i) by omega, hb, hv]
    exact ⟨rfl, Host.clampInt_toNat_le' 11 11 (by norm_num) _⟩
  · intro i hi
    have hb := Host.encode_packet_getD_body board_id frame brightness columns
      scope_columns vu (56 + i) (by omega)
    have hv := Host.encodeBody_getD_scope board_id frame brightness columns
      scope_columns vu i hi
    rw [show 58 + i = 2 + (56 + i) by omega, hb, hv]
    rcases scope_columns with _ | sc
    · exact ⟨by simp, fun _ => rfl⟩
    · refine ⟨Host.clampInt_toNat_le' 10 10 (by norm_num) _, fun hnone => ?_⟩
      cases hnone
  · intro i hi
    have hb := Host.encode_packet_getD_body board_id frame brightness columns
      scope_columns vu (109 + i) (by omega)
    have hv := Host.encodeBody_getD_vu board_id frame brightness columns
      scope_columns vu i hi
    rw [show 111 + i = 2 + (109 + i) by omega, hb, hv]
    rcases vu with _ | ⟨a, b, c, d⟩
    · exact ⟨by simp, fun _ => rfl⟩
    · refine ⟨Host.clampInt_toNat_le' (Host.NUM_COLS : Int) 53
        (by norm_num [Host.NUM_COLS]) _, fun hnone => ?_⟩
      cases hnone
  · rw [Host.encode_packet_getD_checksum, Host.encode_packet_body_slice]

/-- Witness for C3 at out-of-range caller values: bars of 20, scope of
-5, a VU tuple containing 100 and -1; the packet still has 116 bytes and
in-range bar and scope bytes. -/
theorem C3_encode_packet_layout_witness :
    (Host.encode_packet 1 2 3 (List.replicate 53 20)
        (some (List.replicate 53 (-5))) (some (100, -1, 2, 3))).length = 116
    ∧ (Host.encode_packet 1 2 3 (List.replicate 53 20)
        (some (List.replicate 53 (-5))) (some (100, -1, 2, 3))).getD (5 + 0) 0 ≤ 11
    ∧ (Host.encode_packet 1 2 3 (List.replicate 53 20)
        (some (List.replicate 53 (-5))) (some (100, -1, 2, 3))).getD (58 + 7) 0 ≤ 10
    ∧ (Host.encode_packet 1 2 3 (List.replicate 53 20)
        (some (List.replicate 53 (-5))) (some (100, -1, 2, 3))).getD (111 + 0) 0 ≤ 53 := by
  have h := C3_encode_packet_layout 1 2 3 (List.replicate 53 20)
    (some (List.replicate 53 (-5))) (some (100, -1, 2, 3))
    (by decide) (by intro sc hsc; cases hsc; decide)
  exact ⟨h.1, (h.2.2.2.2.1 0 (by omega)).2, (h.2.2.2.2.2.1 7 (by omega)).1,
    (h.2.2.2.2.2.2.1 0 (by omega)).1⟩

theorem foldl_xor_init (l : List Nat) : ∀ a : Nat,
    l.foldl (fun x y => x ^^^ y) a = a ^^^ xorBytes l := by
  induction l with
  | nil => intro a; simp [xorBytes]
  | cons x t ih =>
      intro a
      show t.foldl (fun x y => x ^^^ y) (a ^^^ x) = a ^^^ xorBytes (x :: t)
      have hx : xorBytes (x :: t) = t.foldl (fun x y => x ^^^ y) (0 ^^^ x) := rfl
      rw [ih (a ^^^ x), hx, ih (0 ^^^ x), Nat.zero_xor, Nat.xor_assoc]

theorem xorBytes_cons (x : Nat) (t : List Nat) :
    xorBytes (x :: t) = x ^^^ xorBytes t := by
  have hx : xorBytes (x :: t) = t.foldl (fun x y => x ^^^ y) (0 ^^^ x) := rfl
  rw [hx, foldl_xor_init t (0 ^^^ x), Nat.zero_xor]

theorem xorBytes_set (l : List Nat) : ∀ (j x : Nat), j < l.length →
    xorBytes (l.set j x) = xorBytes l ^^^ l.getD j 0 ^^^ x := by
  induction l with
  | nil => intro j x hj; simp at hj
  | cons a t ih =>
      intro j x hj
      cases j with
      | zero =>
          show xorBytes (x :: t) = xorBytes (a :: t) ^^^ (a :: t).getD 0 0 ^^^ x
          rw [xorBytes_cons, xorBytes_cons, List.getD_cons_zero,
            Nat.xor_comm a (xorBytes t), Nat.xor_cancel_right, Nat.xor_comm]
      | succ j =>
          show xorBytes (a :: t.set j x)
              = xorBytes (a :: t) ^^^ (a :: t).getD (j + 1) 0 ^^^ x
          rw [xorBytes_cons, xorBytes_cons, List.getD_cons_succ,
            ih j x (by simpa using hj)]
          simp [Nat.xor_assoc]

theorem take_set_of_lt (l : List Nat) (i n x : Nat) (h : i < n) :
    (l.set i x).take n = (l.take n).set i x := by
  apply List.ext_getElem?
  intro m
  simp only [List.getElem?_take, List.getElem?_set, List.length_take]
  split_ifs <;> first | rfl | omega

theorem take_set_of_le (l : List Nat) (i n x : Nat) (h : n ≤ i) :
    (l.set i x).take n = l.take n := by
  apply List.ext_getElem?
  intro m
  simp only [List.getElem?_take, List.getElem?_set]
  split_ifs <;> first | rfl | omega

theorem getD_set_ne (l : List Nat) (i j x : Nat) (h : i ≠ j) :
    (l.set i x).getD j 0 = l.getD j 0 := by
  simp [List.getD_eq_getElem?_getD, List.getElem?_set_ne h]

theorem getD_set_self (l : List Nat) (i x : Nat) (h : i < l.length) :
    (l.set i x).getD i 0 = x := by
  simp [List.getD_eq_getElem?_getD, List.getElem?_set_self h]

theorem getD_take_lt (l : List Nat) (n i : Nat) (h : i < n) :
    (l.take n).getD i 0 = l.getD i 0 := by
  simp [List.getD_eq_getElem?_getD, List.getElem?_take, h]

theorem getD_drop_add (l : List Nat) (n i : Nat) :
    (l.drop n).getD i 0 = l.getD (n + i) 0 := by
  simp [List.getD_eq_getElem?_getD, List.getElem?_drop]

theorem xor_flip_ne (F b c : Nat) (hc : c ≠ 0) : F ^^^ b ^^^ (b ^^^ c) ≠ F := by
  rw [Nat.xor_assoc, ← Nat.xor_assoc b b c, Nat.xor_self, Nat.zero_xor]
  intro h
  exact hc (Nat.xor_right_inj.mp (by rw [h, Nat.xor_zero]))

/-- C4: if validate_packet accepts a buffer, then flipping any single bit
of any byte from offset 2 through the checksum byte at offset 58 makes
validate_packet return none. -/
theorem C4_single_bitflip_rejected (data : List Nat) (f : Pico.Frame) (j k : Nat)
    (hf : Pico.validate_packet data = some f)
    (hj2 : 2 ≤ j) (hj : j ≤ 58) (hk : k < 8) :
    Pico.validate_packet (data.set j (data.getD j 0 ^^^ 2 ^ k)) = none := by
  have hPB : Pico.PACKET_BODY = 56 := rfl
  have hPT : Pico.PACKET_TOTAL = 59 := rfl
  have h2k : (2 : Nat) ^ k ≠ 0 := (Nat.pos_pow_of_pos k (by omega)).ne'
  unfold Pico.validate_packet at hf
  split at hf
  · exact absurd hf (by simp)
  next hlen =>
  split at hf
  · exact absurd hf (by simp)
  next hsync =>
  dsimp only at hf
  split at hf
  · exact absurd hf (by simp)
  next hchk =>
  have hlen' : data.length = 59 := by rw [← hPT]; exact not_not.mp hlen
  simp only [ne_eq, not_or, not_not] at hsync hchk
  set x := data.getD j 0 ^^^ 2 ^ k with hx
  unfold Pico.validate_packet
  rw [if_neg (by simp only [List.length_set, ne_eq, not_not, hPT]; exact hlen')]
  rw [if_neg (by
    have e0 := getD_set_ne data j 0 x (by omega)
    have e1 := getD_set_ne data j 1 x (by omega)
    simp only [e0, e1, ne_eq, not_or, not_not]
    exact hsync)]
  dsimp only
  have hbody_len : ((data.drop 2).take Pico.PACKET_BODY).length = 56 := by
    simp only [List.length_take, List.length_drop, hlen', hPB]
    omega
  rcases Nat.lt_or_ge j 58 with hj57 | hj58
  · -- a body byte was flipped; the checksum byte is unchanged
    have hdrop : (data.set j x).drop 2 = (data.drop 2).set (j - 2) x := by
      rw [List.drop_set, if_neg (by omega)]
    have htake : ((data.drop 2).set (j - 2) x).take Pico.PACKET_BODY
        = ((data.drop 2).take Pico.PACKET_BODY).set (j - 2) x := by
      rw [hPB]; exact take_set_of_lt _ _ _ _ (by omega)
    have hb : ((data.drop 2).take Pico.PACKET_BODY).getD (j - 2) 0
        = data.getD j 0 := by
      rw [hPB, getD_take_lt _ _ _ (by omega), getD_drop_add,
        show 2 + (j - 2) = j by omega]
    have hxs : xorBytes (((data.drop 2).take Pico.PACKET_BODY).set (j - 2) x)
        = xorBytes ((data.drop 2).take Pico.PACKET_BODY)
            ^^^ data.getD j 0 ^^^ x := by
      rw [xorBytes_set _ _ _ (by omega), hb]
    have hcs : (data.set j x).getD (2 + Pico.PACKET_BODY) 0
        = data.getD (2 + Pico.PACKET_BODY) 0 :=
      getD_set_ne data j (2 + Pico.PACKET_BODY) x (by rw [hPB]; omega)
    rw [if_pos (by
      rw [hdrop, htake, hxs, hcs, hchk, hx]
      exact xor_flip_ne _ _ _ h2k)]
  · -- the checksum byte itself was flipped; the body is unchanged
    have hj' : j = 58 := by omega
    subst hj'
    have hdrop : (data.set 58 x).drop 2 = (data.drop 2).set 56 x := by
      rw [List.drop_set, if_neg (by omega)]
    have htake : ((data.drop 2).set 56 x).take Pico.PACKET_BODY
        = (data.drop 2).take Pico.PACKET_BODY := by
      rw [hPB]; exact take_set_of_le _ _ _ _ (by omega)
    have hcs : (data.set 58 x).getD (2 + Pico.PACKET_BODY) 0 = x := by
      rw [show 2 + Pico.PACKET_BODY = 58 from rfl]
      exact getD_set_self data 58 x (by omega)
    rw [if_pos (by
      rw [hdrop, htake, hcs, hchk, hx]
      intro h
      exact h2k (Nat.xor_right_inj.mp (by rw [← h, Nat.xor_zero]; rfl)))]

/-- Witness for C4: flipping bit 0 of byte 5 of an accepted all-zero
packet makes validation fail. -/
theorem C4_single_bitflip_rejected_witness :
    Pico.validate_packet
      ((Pico.SYNC_0 :: Pico.SYNC_1 :: (List.replicate 56 0 ++ [0])).set 5
        ((Pico.SYNC_0 :: Pico.SYNC_1 :: (List.replicate 56 0 ++ [0])).getD 5 0
          ^^^ 2 ^ 0)) = none :=
  C4_single_bitflip_rejected
    (Pico.SYNC_0 :: Pico.SYNC_1 :: (List.replicate 56 0 ++ [0]))
    ⟨0, 0, 0, List.replicate 53 0⟩ 5 0 (by decide) (by omega) (by omega) (by omega)

/-- Round half to even, the rounding used by both np.round and the
Python built-in round. -/
def roundHalfEven {α : Type} [LinearOrderedField α] [FloorRing α] (x : α) : ℤ :=
  if x - (⌊x⌋ : α) < 1 / 2 then ⌊x⌋
  else if 1 / 2 < x - (⌊x⌋ : α) then ⌊x⌋ + 1
  else if ⌊x⌋ % 2 = 0 then ⌊x⌋ else ⌊x⌋ + 1

theorem roundHalfEven_bounds {α : Type} [LinearOrderedField α] [FloorRing α]
    (x : α) : ⌊x⌋ ≤ roundHalfEven x ∧ roundHalfEven x ≤ ⌊x⌋ + 1 := by
  unfold roundHalfEven
  split_ifs <;> omega

theorem roundHalfEven_nonneg {α : Type} [LinearOrderedField α] [FloorRing α]
    (x : α) (h : 0 ≤ x) : 0 ≤ roundHalfEven x := by
  have hf : (0 : ℤ) ≤ ⌊x⌋ := Int.floor_nonneg.mpr h
  have := (roundHalfEven_bounds x).1
  omega

theorem roundHalfEven_le_of_le {α : Type} [LinearOrderedField α] [FloorRing α]
    (x : α) (n : ℤ) (h : x ≤ (n : α)) : roundHalfEven x ≤ n := by
  have hf : ⌊x⌋ ≤ n := by
    have := Int.floor_le_floor h
    simpa using this
  rcases lt_or_eq_of_le hf with hlt | heq
  · have := (roundHalfEven_bounds x).2
    omega
  · unfold roundHalfEven
    have hr : x - (⌊x⌋ : α) < 1 / 2 := by
      have hx : x ≤ (⌊x⌋ : α) := by rw [heq]; exact h
      have : x - (⌊x⌋ : α) ≤ 0 := by linarith
      linarith
    rw [if_pos hr]
    exact hf

/-- Truncation toward zero, as ndarray.astype(int) does. -/
def truncToInt {α : Type} [LinearOrderedField α] [FloorRing α] (x : α) : ℤ :=
  if x < 0 then -⌊-x⌋ else ⌊x⌋

/-- np.max over a rational list (the lists used are nonempty). -/
def amax (l : List ℚ) : ℚ := l.foldl max (l.getD 0 0)

namespace FFT

/-- Constants of src/host/fft_processor.py. -/
def NUM_BANDS : Nat := 53

def MAX_HEIGHT : ℚ := 11

def ATTACK : ℚ := 8 / 10

def DECAY : ℚ := 3 / 10

def DB_FLOOR : ℚ := -60

def HEADROOM_DB : ℚ := 8

def DISPLAY_RANGE_DB : ℚ := 55

def PEAK_ATTACK_RATE : ℚ := 9 / 10

def PEAK_RELEASE_RATE : ℚ := 5 / 1000

/-- Mutable state of FFTProcessor: the smoothed bar heights and the
adaptive-gain tracker. -/
structure State where
  smoothed : List ℚ
  tracked_peak_db : ℚ
deriving DecidableEq, Repr

/-- State right after FFTProcessor construction. -/
def State.init : State := ⟨List.replicate NUM_BANDS 0, DB_FLOOR⟩

/-- Per-band dB value of an all-zero input block: every band magnitude is
0, floored to 1e-10, and 20 * log10(1e-10) = -200 exactly. -/
def SILENT_DB : ℚ := -200

/-- FFTProcessor.process from the per-band dB vector onward (lines 72-103
of src/host/fft_processor.py): adaptive peak tracking with asymmetric
rates, dynamic ceiling and floor, normalization clipped to 0..1 and
scaled by MAX_HEIGHT, asymmetric smoothing, round to int. The windowed
FFT, band aggregation and dB conversion (lines 60-70) produce the db
argument; they involve transcendental functions and are the parameter
of this embedding. Rational division is total with x / 0 = 0; the float
code would produce inf at a denominator of exactly zero, a case none of
the theorems touch. -/
def processDb (st : State) (db : List ℚ) : State × List ℤ :=
  let current_peak_db := amax db
  let tracked :=
    if current_peak_db > st.tracked_peak_db then
      st.tracked_peak_db + PEAK_ATTACK_RATE * (current_peak_db - st.tracked_peak_db)
    else
      st.tracked_peak_db + PEAK_RELEASE_RATE * (current_peak_db - st.tracked_peak_db)
  let effective_ceil := tracked + HEADROOM_DB
  let effective_floor := max (effective_ceil - DISPLAY_RANGE_DB) DB_FLOOR
  let heights := db.map (fun d =>
    min (max ((d - effective_floor) / (effective_ceil - effective_floor)) 0) 1
      * MAX_HEIGHT)
  let smoothed := List.zipWith
    (fun h s => if h ≥ s then s + ATTACK * (h - s) else s + DECAY * (h - s))
    heights st.smoothed
  (⟨smoothed, tracked⟩, smoothed.map roundHalfEven)

/-- The dB vector of an all-zero (silent) block. -/
def silentDb : List ℚ := List.replicate NUM_BANDS SILENT_DB

/-- State after n silent blocks. -/
def silentState : Nat → State
  | 0 => State.init
  | n + 1 => (processDb (silentState n) silentDb).1

end FFT

namespace FFT

theorem foldl_max_replicate : ∀ (n : Nat) (a x : ℚ),
    (List.replicate n x).foldl max a = if n = 0 then a else max a x := by
  intro n
  induction n with
  | zero => intro a x; simp
  | succ n ih =>
      intro a x
      simp only [List.replicate, List.foldl_cons, ih]
      rcases Nat.eq_zero_or_pos n with h | h
      · simp [h]
      · rw [if_neg (by omega), if_neg (by omega), max_assoc, max_self]

theorem amax_silentDb : amax silentDb = SILENT_DB := by
  unfold amax silentDb
  rw [foldl_max_replicate, if_neg (by norm_num [NUM_BANDS])]
  have h : (List.replicate NUM_BANDS SILENT_DB).getD 0 0 = SILENT_DB := by
    simp [List.getD_eq_getElem?_getD, List.getElem?_replicate, NUM_BANDS]
  rw [h, max_self]

theorem roundHalfEven_zero : roundHalfEven (0 : ℚ) = 0 := by
  unfold roundHalfEven
  norm_num

/-- One silent block while the adaptive range is still positive: the
tracker decays toward -200 and every bar target is 0, so the smoothed
state and the output stay all-zero. -/
theorem processDb_silent_notarget (t t' : ℚ)
    (ht' : t' = t + PEAK_RELEASE_RATE * (SILENT_DB - t))
    (hbr : ¬(SILENT_DB > t))
    (hpos : -68 < t') :
    processDb ⟨List.replicate NUM_BANDS 0, t⟩ silentDb
      = (⟨List.replicate NUM_BANDS 0, t'⟩, List.replicate NUM_BANDS 0) := by
  unfold processDb
  dsimp only
  rw [amax_silentDb, if_neg hbr, ← ht']
  have hfl : ∀ e : ℚ, e = max (t' + HEADROOM_DB - DISPLAY_RANGE_DB) DB_FLOOR →
      SILENT_DB - e < 0 ∧ 0 < t' + HEADROOM_DB - e := by
    intro e he
    rcases le_total (t' + HEADROOM_DB - DISPLAY_RANGE_DB) DB_FLOOR with h | h
    · rw [he, max_eq_right h]
      constructor <;> norm_num [SILENT_DB, DB_FLOOR, HEADROOM_DB] <;> linarith
    · rw [he, max_eq_left h]
      have : DB_FLOOR ≤ t' + HEADROOM_DB - DISPLAY_RANGE_DB := h
      constructor
      · norm_num [SILENT_DB, DB_FLOOR, HEADROOM_DB, DISPLAY_RANGE_DB] at this ⊢
        linarith
      · norm_num [DISPLAY_RANGE_DB]
  obtain ⟨hnum, hden⟩ := hfl _ rfl
  have hheights : silentDb.map (fun d =>
      min (max ((d - max (t' + HEADROOM_DB - DISPLAY_RANGE_DB) DB_FLOOR) /
        (t' + HEADROOM_DB - max (t' + HEADROOM_DB - DISPLAY_RANGE_DB) DB_FLOOR)) 0) 1
        * MAX_HEIGHT) = List.replicate NUM_BANDS 0 := by
    unfold silentDb
    rw [List.map_replicate]
    have hq : (SILENT_DB - max (t' + HEADROOM_DB - DISPLAY_RANGE_DB) DB_FLOOR) /
        (t' + HEADROOM_DB - max (t' + HEADROOM_DB - DISPLAY_RANGE_DB) DB_FLOOR) < 0 :=
      div_neg_of_neg_of_pos hnum hden
    rw [max_eq_right (le_of_lt hq), min_eq_left (by norm_num), zero_mul]
  rw [hheights, List.zipWith_replicate', List.map_replicate]
  have hsm : (if (0 : ℚ) ≥ 0 then (0 : ℚ) + ATTACK * (0 - 0) else 0 + DECAY * (0 - 0))
      = 0 := by norm_num
  rw [hsm, roundHalfEven_zero]

/-- One silent block once the decayed tracker has pushed the adaptive
range negative: every bar target becomes MAX_HEIGHT and the smoothed
heights jump to 44/5, rounding to 9. -/
theorem processDb_silent_fullbars (t t' : ℚ)
    (ht' : t' = t + PEAK_RELEASE_RATE * (SILENT_DB - t))
    (hbr : ¬(SILENT_DB > t))
    (hlow : t' < -68) (hhigh : -208 < t') :
    processDb ⟨List.replicate NUM_BANDS 0, t⟩ silentDb
      = (⟨List.replicate NUM_BANDS ((44 : ℚ)/5), t'⟩,
         List.replicate NUM_BANDS 9) := by
  unfold processDb
  dsimp only
  rw [amax_silentDb, if_neg hbr, ← ht']
  have hef : max (t' + HEADROOM_DB - DISPLAY_RANGE_DB) DB_FLOOR = DB_FLOOR := by
    apply max_eq_right
    norm_num [HEADROOM_DB, DISPLAY_RANGE_DB, DB_FLOOR]
    linarith
  rw [hef]
  have hden : t' + HEADROOM_DB - DB_FLOOR < 0 := by
    norm_num [HEADROOM_DB, DB_FLOOR]
    linarith
  have hq1 : (1 : ℚ) ≤ (SILENT_DB - DB_FLOOR) / (t' + HEADROOM_DB - DB_FLOOR) := by
    rw [le_div_iff_of_neg hden]
    norm_num [SILENT_DB, DB_FLOOR, HEADROOM_DB]
    linarith
  have hheights : silentDb.map (fun d =>
      min (max ((d - DB_FLOOR) / (t' + HEADROOM_DB - DB_FLOOR)) 0) 1 * MAX_HEIGHT)
      = List.replicate NUM_BANDS MAX_HEIGHT := by
    unfold silentDb
    rw [List.map_replicate, max_eq_left (le_trans (by norm_num) hq1),
      min_eq_right hq1, one_mul]
  rw [hheights, List.zipWith_replicate', List.map_replicate]
  have hsm : (if MAX_HEIGHT ≥ (0 : ℚ) then (0 : ℚ) + ATTACK * (MAX_HEIGHT - 0)
      else 0 + DECAY * (MAX_HEIGHT - 0)) = (44 : ℚ)/5 := by
    rw [if_pos (by norm_num [MAX_HEIGHT])]
    norm_num [ATTACK, MAX_HEIGHT]
  rw [hsm]
  have hr : roundHalfEven ((44 : ℚ)/5) = 9 := by
    unfold roundHalfEven
    have hfl : ⌊(44 : ℚ)/5⌋ = 8 := by
      rw [Int.floor_eq_iff]
      norm_num
    rw [hfl]
    norm_num
  rw [hr]

theorem silentState_succ (n : Nat) :
    silentState (n + 1) = (processDb (silentState n) silentDb).1 := rfl

end FFT

/-- C8: under all-zero input blocks the adaptive-gain tracker decays
each call; the first eleven calls output all-zero bars, but at the
twelfth call the tracker has fallen below -68 dB, the normalization
denominator turns negative, every bar target becomes 11 and the output
jumps to all nines instead of remaining 0, contradicting the claim that
bars converge to 0 and stay there. -/
theorem C8_silence_bars_jump :
    (FFT.processDb (FFT.silentState 10) FFT.silentDb).2
        = List.replicate FFT.NUM_BANDS 0
    ∧ (FFT.processDb (FFT.silentState 11) FFT.silentDb).2
        = List.replicate FFT.NUM_BANDS 9 := by
  have hs0 : FFT.silentState 0 = ⟨List.replicate FFT.NUM_BANDS 0, (-60 : ℚ)⟩ := rfl
  have hp0 : FFT.processDb (FFT.silentState 0) FFT.silentDb
      = (⟨List.replicate FFT.NUM_BANDS 0, ((-607 : ℚ)/10)⟩, List.replicate FFT.NUM_BANDS 0) := by
    rw [hs0]
    exact FFT.processDb_silent_notarget (-60 : ℚ) ((-607 : ℚ)/10)
      (by norm_num [FFT.PEAK_RELEASE_RATE, FFT.SILENT_DB])
      (by norm_num [FFT.SILENT_DB]) (by norm_num)
  have hs1 : FFT.silentState 1 = ⟨List.replicate FFT.NUM_BANDS 0, ((-607 : ℚ)/10)⟩ := by
    rw [show (1 : Nat) = 0 + 1 from rfl, FFT.silentState_succ, hp0]
  have hp1 : FFT.processDb (FFT.silentState 1) FFT.silentDb
      = (⟨List.replicate FFT.NUM_BANDS 0, ((-122793 : ℚ)/2000)⟩, List.replicate FFT.NUM_BANDS 0) := by
    rw [hs1]
    exact FFT.processDb_silent_notarget ((-607 : ℚ)/10) ((-122793 : ℚ)/2000)
      (by norm_num [FFT.PEAK_RELEASE_RATE, FFT.SILENT_DB])
      (by norm_num [FFT.SILENT_DB]) (by norm_num)
  have hs2 : FFT.silentState 2 = ⟨List.replicate FFT.NUM_BANDS 0, ((-122793 : ℚ)/2000)⟩ := by
    rw [show (2 : Nat) = 1 + 1 from rfl, FFT.silentState_succ, hp1]
  have hp2 : FFT.processDb (FFT.silentState 2) FFT.silentDb
      = (⟨List.replicate FFT.NUM_BANDS 0, ((-24835807 : ℚ)/400000)⟩, List.replicate FFT.NUM_BANDS 0) := by
    rw [hs2]
    exact FFT.processDb_silent_notarget ((-122793 : ℚ)/2000) ((-24835807 : ℚ)/400000)
      (by norm_num [FFT.PEAK_RELEASE_RATE, FFT.SILENT_DB])
      (by norm_num [FFT.SILENT_DB]) (by norm_num)
  have hs3 : FFT.silentState 3 = ⟨List.replicate FFT.NUM_BANDS 0, ((-24835807 : ℚ)/400000)⟩ := by
    rw [show (3 : Nat) = 2 + 1 from rfl, FFT.silentState_succ, hp2]
  have hp3 : FFT.processDb (FFT.silentState 3) FFT.silentDb
      = (⟨List.replicate FFT.NUM_BANDS 0, ((-5022325593 : ℚ)/80000000)⟩, List.replicate FFT.NUM_BANDS 0) := by
    rw [hs3]
    exact FFT.processDb_silent_notarget ((-24835807 : ℚ)/400000) ((-5022325593 : ℚ)/80000000)
      (by norm_num [FFT.PEAK_RELEASE_RATE, FFT.SILENT_DB])
      (by norm_num [FFT.SILENT_DB]) (by norm_num)
  have hs4 : FFT.silentState 4 = ⟨List.replicate FFT.NUM_BANDS 0, ((-5022325593 : ℚ)/80000000)⟩ := by
    rw [show (4 : Nat) = 3 + 1 from rfl, FFT.silentState_succ, hp3]
  have hp4 : FFT.processDb (FFT.silentState 4) FFT.silentDb
      = (⟨List.replicate FFT.NUM_BANDS 0, ((-1015442793007 : ℚ)/16000000000)⟩, List.replicate FFT.NUM_BANDS 0) := by
    rw [hs4]
    exact FFT.processDb_silent_notarget ((-5022325593 : ℚ)/80000000) ((-1015442793007 : ℚ)/16000000000)
      (by norm_num [FFT.PEAK_RELEASE_RATE, FFT.SILENT_DB])
      (by norm_num [FFT.SILENT_DB]) (by norm_num)
  have hs5 : FFT.silentState 5 = ⟨List.replicate FFT.NUM_BANDS 0, ((-1015442793007 : ℚ)/16000000000)⟩ := by
    rw [show (5 : Nat) = 4 + 1 from rfl, FFT.silentState_succ, hp4]
  have hp5 : FFT.processDb (FFT.silentState 5) FFT.silentDb
      = (⟨List.replicate FFT.NUM_BANDS 0, ((-205273115808393 : ℚ)/3200000000000)⟩, List.replicate FFT.NUM_BANDS 0) := by
    rw [hs5]
    exact FFT.processDb_silent_notarget ((-1015442793007 : ℚ)/16000000000) ((-205273115808393 : ℚ)/3200000000000)
      (by norm_num [FFT.PEAK_RELEASE_RATE, FFT.SILENT_DB])
      (by norm_num [FFT.SILENT_DB]) (by norm_num)
  have hs6 : FFT.silentState 6 = ⟨List.replicate FFT.NUM_BANDS 0, ((-205273115808393 : ℚ)/3200000000000)⟩ := by
    rw [show (6 : Nat) = 5 + 1 from rfl, FFT.silentState_succ, hp5]
  have hp6 : FFT.processDb (FFT.silentState 6) FFT.silentDb
      = (⟨List.replicate FFT.NUM_BANDS 0, ((-41489350045870207 : ℚ)/640000000000000)⟩, List.replicate FFT.NUM_BANDS 0) := by
    rw [hs6]
    exact FFT.processDb_silent_notarget ((-205273115808393 : ℚ)/3200000000000) ((-41489350045870207 : ℚ)/640000000000000)
      (by norm_num [FFT.PEAK_RELEASE_RATE, FFT.SILENT_DB])
      (by norm_num [FFT.SILENT_DB]) (by norm_num)
  have hs7 : FFT.silentState 7 = ⟨List.replicate FFT.NUM_BANDS 0, ((-41489350045870207 : ℚ)/640000000000000)⟩ := by
    rw [show (7 : Nat) = 6 + 1 from rfl, FFT.silentState_succ, hp6]
  have hp7 : FFT.processDb (FFT.silentState 7) FFT.silentDb
      = (⟨List.replicate FFT.NUM_BANDS 0, ((-8384380659128171193 : ℚ)/128000000000000000)⟩, List.replicate FFT.NUM_BANDS 0) := by
    rw [hs7]
    exact FFT.processDb_silent_notarget ((-41489350045870207 : ℚ)/640000000000000) ((-8384380659128171193 : ℚ)/128000000000000000)
      (by norm_num [FFT.PEAK_RELEASE_RATE, FFT.SILENT_DB])
      (by norm_num [FFT.SILENT_DB]) (by norm_num)
  have hs8 : FFT.silentState 8 = ⟨List.replicate FFT.NUM_BANDS 0, ((-8384380659128171193 : ℚ)/128000000000000000)⟩ := by
    rw [show (8 : Nat) = 7 + 1 from rfl, FFT.silentState_succ, hp7]
  have hp8 : FFT.processDb (FFT.silentState 8) FFT.silentDb
      = (⟨List.replicate FFT.NUM_BANDS 0, ((-1694091751166506067407 : ℚ)/25600000000000000000)⟩, List.replicate FFT.NUM_BANDS 0) := by
    rw [hs8]
    exact FFT.processDb_silent_notarget ((-8384380659128171193 : ℚ)/128000000000000000) ((-1694091751166506067407 : ℚ)/25600000000000000000)
      (by norm_num [FFT.PEAK_RELEASE_RATE, FFT.SILENT_DB])
      (by norm_num [FFT.SILENT_DB]) (by norm_num)
  have hs9 : FFT.silentState 9 = ⟨List.replicate FFT.NUM_BANDS 0, ((-1694091751166506067407 : ℚ)/25600000000000000000)⟩ := by
    rw [show (9 : Nat) = 8 + 1 from rfl, FFT.silentState_succ, hp8]
  have hp9 : FFT.processDb (FFT.silentState 9) FFT.silentDb
      = (⟨List.replicate FFT.NUM_BANDS 0, ((-342244258482134707413993 : ℚ)/5120000000000000000000)⟩, List.replicate FFT.NUM_BANDS 0) := by
    rw [hs9]
    exact FFT.processDb_silent_notarget ((-1694091751166506067407 : ℚ)/25600000000000000000) ((-342244258482134707413993 : ℚ)/5120000000000000000000)
      (by norm_num [FFT.PEAK_RELEASE_RATE, FFT.SILENT_DB])
      (by norm_num [FFT.SILENT_DB]) (by norm_num)
  have hs10 : FFT.silentState 10 = ⟨List.replicate FFT.NUM_BANDS 0, ((-342244258482134707413993 : ℚ)/5120000000000000000000)⟩ := by
    rw [show (10 : Nat) = 9 + 1 from rfl, FFT.silentState_succ, hp9]
  have hp10 : FFT.processDb (FFT.silentState 10) FFT.silentDb
      = (⟨List.replicate FFT.NUM_BANDS 0, ((-69130607437944806775384607 : ℚ)/1024000000000000000000000)⟩, List.replicate FFT.NUM_BANDS 0) := by
    rw [hs10]
    exact FFT.processDb_silent_notarget ((-342244258482134707413993 : ℚ)/5120000000000000000000) ((-69130607437944806775384607 : ℚ)/1024000000000000000000000)
      (by norm_num [FFT.PEAK_RELEASE_RATE, FFT.SILENT_DB])
      (by norm_num [FFT.SILENT_DB]) (by norm_num)
  have hs11 : FFT.silentState 11 = ⟨List.replicate FFT.NUM_BANDS 0, ((-69130607437944806775384607 : ℚ)/1024000000000000000000000)⟩ := by
    rw [show (11 : Nat) = 10 + 1 from rfl, FFT.silentState_succ, hp10]
  refine ⟨hp10 ▸ rfl, ?_⟩
  rw [hs11]
  have h12 := FFT.processDb_silent_fullbars ((-69130607437944806775384607 : ℚ)/1024000000000000000000000) ((-13961790880151016548301536793 : ℚ)/204800000000000000000000000)
    (by norm_num [FFT.PEAK_RELEASE_RATE, FFT.SILENT_DB])
    (by norm_num [FFT.SILENT_DB]) (by norm_num) (by norm_num)
  rw [h12]

namespace Waveform

/-- Constants of src/host/waveform_processor.py. -/
def NUM_COLS : Nat := 53

def MAX_Y : ℚ := 10

def GAIN_ATTACK : ℚ := 9 / 10

def GAIN_RELEASE : ℚ := 1 / 100

def MIN_AMPLITUDE : ℚ := 1 / 1000

/-- Mutable state of WaveformProcessor. -/
structure State where
  block_size : Nat
  tracked_peak : ℚ
deriving DecidableEq, Repr

/-- _find_trigger: the first index i in [1, len/4) with a rising zero
crossing (chunk[i-1] <= 0 < chunk[i]), or 0 when none exists. -/
def find_trigger (chunk : List ℚ) : Nat :=
  match ((List.range (chunk.length / 4)).drop 1).find?
      (fun i => decide (chunk.getD (i - 1) 0 ≤ 0 ∧ 0 < chunk.getD i 0)) with
  | some i => i
  | none => 0

/-- np.interp at one query point over sample points 0, 1, ..., len-1:
clamps outside the range and interpolates linearly between neighbours. -/
def interp (seg : List ℚ) (x : ℚ) : ℚ :=
  if x ≤ 0 then seg.getD 0 0
  else if ((seg.length : ℚ) - 1) ≤ x then seg.getD (seg.length - 1) 0
  else
    seg.getD ⌊x⌋.toNat 0
      + (x - (⌊x⌋.toNat : ℚ))
        * (seg.getD (⌊x⌋.toNat + 1) 0 - seg.getD ⌊x⌋.toNat 0)

/-- WaveformProcessor.process (src/host/waveform_processor.py lines
26-61): trigger search, half-block segment with zero padding, linear
downsampling to 53 points, adaptive gain, normalization, mapping of
-1..1 onto 0..MAX_Y with truncation, and clipping into 0..MAX_Y. -/
def process (st : State) (chunk : List ℚ) : State × List ℤ :=
  let trigger := find_trigger chunk
  let window_size := st.block_size / 2
  let endIdx := min (trigger + window_size) chunk.length
  let segment0 := (chunk.take endIdx).drop trigger
  let segment := if segment0.length < NUM_COLS
    then segment0 ++ List.replicate (NUM_COLS - segment0.length) 0
    else segment0
  let indices := (List.range NUM_COLS).map
    (fun j => (j : ℚ) * ((segment.length : ℚ) - 1) / ((NUM_COLS : ℚ) - 1))
  let downsampled := indices.map (interp segment)
  let peak := amax (downsampled.map (fun v => |v|))
  let tracked0 :=
    if peak > st.tracked_peak then
      st.tracked_peak + GAIN_ATTACK * (peak - st.tracked_peak)
    else
      st.tracked_peak + GAIN_RELEASE * (peak - st.tracked_peak)
  let tracked := max tracked0 MIN_AMPLITUDE
  let normalized := downsampled.map (fun v => min (max (v / tracked) (-1)) 1)
  let y := normalized.map (fun v => truncToInt ((v + 1) * (1 / 2) * MAX_Y))
  (⟨st.block_size, tracked⟩, y.map (fun z => min (max z 0) 10))

end Waveform

namespace Level

/-- Constants of src/host/level_processor.py. -/
def NUM_COLS : Nat := 53

def DB_FLOOR : ℚ := -60

def DISPLAY_RANGE_DB : ℚ := 54

def RMS_ATTACK : ℚ := 7 / 10

def RMS_DECAY : ℚ := 25 / 100

def PEAK_ATTACK : ℚ := 95 / 100

def PEAK_RELEASE : ℚ := 8 / 1000

def HEADROOM_DB : ℚ := 3

def GAIN_ATTACK_RATE : ℚ := 9 / 10

def GAIN_RELEASE_RATE : ℚ := 5 / 1000

/-- Mutable state of LevelProcessor: per-channel RMS smoothing and peak
hold (the Python lists [L, R] become explicit fields) plus the shared
adaptive-gain tracker. -/
structure State where
  smoothed_rms_l : ℚ
  smoothed_rms_r : ℚ
  peak_hold_l : ℚ
  peak_hold_r : ℚ
  tracked_peak_db : ℚ
deriving DecidableEq, Repr

/-- State right after LevelProcessor construction. -/
def State.init : State := ⟨0, 0, 0, 0, DB_FLOOR⟩

/-- The per-channel loop body of LevelProcessor.process (lines 74-97 of
src/host/level_processor.py): normalize the dB level against the shared
floor and range, clamp to 0..1, scale to columns, asymmetric RMS
smoothing, peak hold with hard linear decay, round and clamp both
columns. Returns (new rms, new peak, rms column, peak column). -/
def channelStep (effective_floor db_range db rms peak : ℚ) : ℚ × ℚ × ℤ × ℤ :=
  let normalized := max 0 (min 1 ((db - effective_floor) / db_range))
  let target := normalized * (NUM_COLS : ℚ)
  let rms1 := if target ≥ rms then rms + RMS_ATTACK * (target - rms)
              else rms + RMS_DECAY * (target - rms)
  let peak1 := if target ≥ peak then peak + PEAK_ATTACK * (target - peak)
               else max 0 (peak - PEAK_RELEASE * (NUM_COLS : ℚ))
  (rms1, peak1,
   max 0 (min (NUM_COLS : ℤ) (roundHalfEven rms1)),
   max 0 (min (NUM_COLS : ℤ) (roundHalfEven peak1)))

/-- LevelProcessor.process from the two per-channel dB levels onward
(lines 56-99): shared adaptive peak tracking, effective floor and range
with the non-positive-range guard, then the per-channel step for L and
R. The RMS and log10 computation (lines 50-54) produces the two dB
arguments; it is the parameter of this embedding. Returns the new state
and (l_rms, l_peak, r_rms, r_peak). -/
def processDb (st : State) (dbL dbR : ℚ) : State × (ℤ × ℤ × ℤ × ℤ) :=
  let current_peak_db := max dbL dbR
  let tracked :=
    if current_peak_db > st.tracked_peak_db then
      st.tracked_peak_db + GAIN_ATTACK_RATE * (current_peak_db - st.tracked_peak_db)
    else
      st.tracked_peak_db + GAIN_RELEASE_RATE * (current_peak_db - st.tracked_peak_db)
  let effective_ceil := tracked + HEADROOM_DB
  let effective_floor := max (effective_ceil - DISPLAY_RANGE_DB) DB_FLOOR
  let db_range0 := effective_ceil - effective_floor
  let db_range := if db_range0 ≤ 0 then 1 else db_range0
  let cL := channelStep effective_floor db_range dbL st.smoothed_rms_l st.peak_hold_l
  let cR := channelStep effective_floor db_range dbR st.smoothed_rms_r st.peak_hold_r
  (⟨cL.1, cR.1, cL.2.1, cR.2.1, tracked⟩,
   (cL.2.2.1, cL.2.2.2, cR.2.2.1, cR.2.2.2))

end Level

theorem mem_zipWith_exists {f : ℚ → ℚ → ℚ} {c : ℚ} :
    ∀ {as bs : List ℚ}, c ∈ List.zipWith f as bs →
      ∃ a b, a ∈ as ∧ b ∈ bs ∧ c = f a b := by
  intro as
  induction as with
  | nil => intro bs h; simp at h
  | cons a as ih =>
      intro bs h
      cases bs with
      | nil => simp at h
      | cons b bs =>
          rw [List.zipWith_cons_cons] at h
          rcases List.mem_cons.mp h with h | h
          · exact ⟨a, b, List.mem_cons_self a as, List.mem_cons_self b bs, h⟩
          · obtain ⟨a', b', ha, hb, hc⟩ := ih h
            exact ⟨a', b', List.mem_cons_of_mem a ha, List.mem_cons_of_mem b hb, hc⟩

namespace FFT

theorem height_bound (q : ℚ) :
    0 ≤ min (max q 0) 1 * MAX_HEIGHT ∧ min (max q 0) 1 * MAX_HEIGHT ≤ 11 := by
  have h0 : 0 ≤ min (max q 0) 1 := le_min (le_max_right q 0) (by norm_num)
  have h1 : min (max q 0) 1 ≤ 1 := min_le_right _ _
  rw [MAX_HEIGHT]
  constructor <;> nlinarith

theorem smooth_bound (h s : ℚ) (hh : 0 ≤ h ∧ h ≤ 11) (hs : 0 ≤ s ∧ s ≤ 11) :
    0 ≤ (if h ≥ s then s + ATTACK * (h - s) else s + DECAY * (h - s))
    ∧ (if h ≥ s then s + ATTACK * (h - s) else s + DECAY * (h - s)) ≤ 11 := by
  simp only [ATTACK, DECAY]
  split_ifs with hc
  · constructor <;> linarith
  · constructor <;> linarith

/-- Per-call range preservation for FFTProcessor: outputs and the new
smoothed state stay inside 0..11 whenever the old smoothed state does,
with no final clamp in the code. -/
theorem processDb_range_invariant (st : State) (db : List ℚ)
    (hinv : ∀ s ∈ st.smoothed, 0 ≤ s ∧ s ≤ 11) :
    (∀ s ∈ (processDb st db).1.smoothed, 0 ≤ s ∧ s ≤ 11)
    ∧ ∀ z ∈ (processDb st db).2, 0 ≤ z ∧ z ≤ 11 := by
  have hsm : ∀ s ∈ (processDb st db).1.smoothed, 0 ≤ s ∧ s ≤ 11 := by
    intro s hs
    unfold processDb at hs
    dsimp only at hs
    obtain ⟨h, s0, hh, hs0, rfl⟩ := mem_zipWith_exists hs
    obtain ⟨d, _, rfl⟩ := List.mem_map.mp hh
    exact smooth_bound _ _ (height_bound _) (hinv s0 hs0)
  refine ⟨hsm, ?_⟩
  intro z hz
  have heq : (processDb st db).2
      = (processDb st db).1.smoothed.map roundHalfEven := rfl
  rw [heq] at hz
  obtain ⟨s, hs, rfl⟩ := List.mem_map.mp hz
  have hb := hsm s hs
  exact ⟨roundHalfEven_nonneg s hb.1,
    roundHalfEven_le_of_le s 11 (by exact_mod_cast hb.2)⟩

theorem init_inv : ∀ s ∈ State.init.smoothed, 0 ≤ s ∧ s ≤ 11 := by
  intro s hs
  simp only [State.init] at hs
  rcases List.eq_of_mem_replicate hs with rfl
  norm_num

end FFT

namespace Waveform

theorem process_bounds (st : State) (chunk : List ℚ) :
    ∀ z ∈ (process st chunk).2, 0 ≤ z ∧ z ≤ 10 := by
  intro z hz
  unfold process at hz
  dsimp only at hz
  obtain ⟨z0, _, rfl⟩ := List.mem_map.mp hz
  exact ⟨le_min (le_max_right z0 0) (by norm_num), min_le_right _ _⟩

end Waveform

namespace Level

theorem clampCol_bounds (r : ℤ) :
    0 ≤ max 0 (min (NUM_COLS : ℤ) r) ∧ max 0 (min (NUM_COLS : ℤ) r) ≤ 53 := by
  refine ⟨le_max_left _ _, max_le (by norm_num) ?_⟩
  exact le_trans (min_le_left _ _) (by norm_num [NUM_COLS])

theorem processDb_output_bounds (st : State) (dbL dbR : ℚ) :
    (0 ≤ (processDb st dbL dbR).2.1 ∧ (processDb st dbL dbR).2.1 ≤ 53)
    ∧ (0 ≤ (processDb st dbL dbR).2.2.1 ∧ (processDb st dbL dbR).2.2.1 ≤ 53)
    ∧ (0 ≤ (processDb st dbL dbR).2.2.2.1 ∧ (processDb st dbL dbR).2.2.2.1 ≤ 53)
    ∧ (0 ≤ (processDb st dbL dbR).2.2.2.2 ∧ (processDb st dbL dbR).2.2.2.2 ≤ 53) := by
  exact ⟨clampCol_bounds _, clampCol_bounds _, clampCol_bounds _, clampCol_bounds _⟩

end Level

/-- C5: every analyzer output component lies in its declared closed
range for every input: FFT bar heights in 0..11 (with the smoothed state
itself staying in 0..11, no final clamp), waveform scope positions in
0..10, and all four VU columns in 0..53. The dB front ends are
parameters, so the bounds hold for every possible dB vector. -/
theorem C5_analyzer_outputs_in_range :
    (∀ (st : FFT.State) (db : List ℚ),
        (∀ s ∈ st.smoothed, 0 ≤ s ∧ s ≤ 11) →
        ((∀ s ∈ (FFT.processDb st db).1.smoothed, 0 ≤ s ∧ s ≤ 11)
         ∧ ∀ z ∈ (FFT.processDb st db).2, 0 ≤ z ∧ z ≤ 11))
    ∧ (∀ s ∈ FFT.State.init.smoothed, 0 ≤ s ∧ s ≤ 11)
    ∧ (∀ (st : Waveform.State) (chunk : List ℚ),
        ∀ z ∈ (Waveform.process st chunk).2, 0 ≤ z ∧ z ≤ 10)
    ∧ (∀ (st : Level.State) (dbL dbR : ℚ),
        (0 ≤ (Level.processDb st dbL dbR).2.1
          ∧ (Level.processDb st dbL dbR).2.1 ≤ 53)
        ∧ (0 ≤ (Level.processDb st dbL dbR).2.2.1
          ∧ (Level.processDb st dbL dbR).2.2.1 ≤ 53)
        ∧ (0 ≤ (Level.processDb st dbL dbR).2.2.2.1
          ∧ (Level.processDb st dbL dbR).2.2.2.1 ≤ 53)
        ∧ (0 ≤ (Level.processDb st dbL dbR).2.2.2.2
          ∧ (Level.processDb st dbL dbR).2.2.2.2 ≤ 53)) :=
  ⟨fun st db hinv => FFT.processDb_range_invariant st db hinv,
   FFT.init_inv,
   fun st chunk => Waveform.process_bounds st chunk,
   fun st dbL dbR => Level.processDb_output_bounds st dbL dbR⟩

/-- Witness for C5: the bounds at concrete inputs — a silent FFT block
from the initial state, a 16-sample zero chunk, and dB levels of -20 and -30. -/
theorem C5_analyzer_outputs_in_range_witness :
    (∀ z ∈ (FFT.processDb FFT.State.init (List.replicate 53 (-200 : ℚ))).2,
        0 ≤ z ∧ z ≤ 11)
    ∧ (∀ z ∈ (Waveform.process ⟨16, 1/1000⟩ (List.replicate 16 (0 : ℚ))).2,
        0 ≤ z ∧ z ≤ 10)
    ∧ (0 ≤ (Level.processDb Level.State.init (-20) (-30)).2.2.1
        ∧ (Level.processDb Level.State.init (-20) (-30)).2.2.1 ≤ 53) :=
  ⟨(C5_analyzer_outputs_in_range.1 FFT.State.init (List.replicate 53 (-200 : ℚ))
      (by
        intro s hs
        simp only [FFT.State.init] at hs
        rcases List.eq_of_mem_replicate hs with rfl
        norm_num)).2,
   C5_analyzer_outputs_in_range.2.2.1 ⟨16, 1/1000⟩ (List.replicate 16 (0 : ℚ)),
   (C5_analyzer_outputs_in_range.2.2.2 Level.State.init (-20) (-30)).2.1⟩

/-- C9: in LevelProcessor.process the peak-hold state moves toward the
normalized target by factor 0.95 when the target is at or above it
(new peak = 0.95 * target + 0.05 * peak), and when the target is below
it the peak drops by the fixed amount 0.008 * 53 = 53/125 per call,
clamped at 0 — a hard linear decay, not proportional to the gap — and
the returned peak column is the rounded peak-hold value clamped into
0..53. Stated for both channels against the shared adapted floor and
range of the call. -/
theorem C9_level_peak_hold_dynamics (st : Level.State) (dbL dbR : ℚ)
    (tracked efl rng : ℚ)
    (htr : tracked =
      (if max dbL dbR > st.tracked_peak_db
       then st.tracked_peak_db + (9/10) * (max dbL dbR - st.tracked_peak_db)
       else st.tracked_peak_db + (5/1000) * (max dbL dbR - st.tracked_peak_db)))
    (hefl : efl = max (tracked + 3 - 54) (-60))
    (hrng : rng = (if tracked + 3 - efl ≤ 0 then 1 else tracked + 3 - efl)) :
    (∀ targetL, targetL = max 0 (min 1 ((dbL - efl) / rng)) * 53 →
      (targetL ≥ st.peak_hold_l →
        (Level.processDb st dbL dbR).1.peak_hold_l
          = (19/20) * targetL + (1/20) * st.peak_hold_l)
      ∧ (targetL < st.peak_hold_l →
        (Level.processDb st dbL dbR).1.peak_hold_l
          = max 0 (st.peak_hold_l - 53/125)))
    ∧ (∀ targetR, targetR = max 0 (min 1 ((dbR - efl) / rng)) * 53 →
      (targetR ≥ st.peak_hold_r →
        (Level.processDb st dbL dbR).1.peak_hold_r
          = (19/20) * targetR + (1/20) * st.peak_hold_r)
      ∧ (targetR < st.peak_hold_r →
        (Level.processDb st dbL dbR).1.peak_hold_r
          = max 0 (st.peak_hold_r - 53/125)))
    ∧ (Level.processDb st dbL dbR).2.2.1
        = max 0 (min 53 (roundHalfEven ((Level.processDb st dbL dbR).1.peak_hold_l)))
    ∧ (Level.processDb st dbL dbR).2.2.2.2
        = max 0 (min 53 (roundHalfEven ((Level.processDb st dbL dbR).1.peak_hold_r))) := by
  subst hrng
  subst hefl
  subst htr
  unfold Level.processDb Level.channelStep
  dsimp only
  simp only [Level.GAIN_ATTACK_RATE, Level.GAIN_RELEASE_RATE, Level.HEADROOM_DB,
    Level.DISPLAY_RANGE_DB, Level.DB_FLOOR, Level.PEAK_ATTACK, Level.PEAK_RELEASE,
    Level.RMS_ATTACK, Level.RMS_DECAY, Level.NUM_COLS, Nat.cast_ofNat]
  refine ⟨?_, ?_, trivial, trivial⟩
  · intro targetL htL
    subst htL
    constructor
    · intro hcase
      rw [if_pos hcase]
      ring
    · intro hcase
      rw [if_neg (not_le.mpr hcase)]
      norm_num
  · intro targetR htR
    subst htR
    constructor
    · intro hcase
      rw [if_pos hcase]
      ring
    · intro hcase
      rw [if_neg (not_le.mpr hcase)]
      norm_num

/-- Witness for C9: from the initial state with both channels at -57 dB,
the shared tracker attacks to -57.3, the range is 5.7, the left target
is 530/19 columns and the peak-hold value lands at 0.95 of it. -/
theorem C9_level_peak_hold_dynamics_witness :
    (Level.processDb Level.State.init (-57) (-57)).1.peak_hold_l
      = (19/20) * ((530 : ℚ)/19) + (1/20) * Level.State.init.peak_hold_l := by
  have h := C9_level_peak_hold_dynamics Level.State.init (-57) (-57)
    ((-573)/10) (-60) (57/10)
    (by norm_num [Level.State.init, Level.DB_FLOOR])
    (by norm_num)
    (by norm_num)
  exact (h.1 ((530 : ℚ)/19) (by norm_num)).1 (by norm_num [Level.State.init])

theorem roundHalfEven_mono {α : Type} [LinearOrderedField α] [FloorRing α]
    {x y : α} (h : x ≤ y) : roundHalfEven x ≤ roundHalfEven y := by
  have hf : ⌊x⌋ ≤ ⌊y⌋ := Int.floor_le_floor h
  rcases lt_or_eq_of_le hf with hlt | heq
  · have hx := (roundHalfEven_bounds x).2
    have hy := (roundHalfEven_bounds y).1
    omega
  · unfold roundHalfEven
    rw [← heq]
    have hr : x - (⌊x⌋ : α) ≤ y - (⌊x⌋ : α) := by linarith
    split_ifs <;> first | omega | linarith

namespace FFT

/-- The logspace band edges of FFTProcessor.__init__:
np.logspace(log10 20, log10 20000, 54) yields 20 * 1000 ^ (k / 53). -/
noncomputable def band_edges (k : Nat) : ℝ :=
  20 * (1000 : ℝ) ^ ((k : ℝ) / 53)

/-- The precomputed bin edges of FFTProcessor.__init__: each band edge
divided by the frequency resolution sample_rate / block_size, rounded
with np.round (half to even; astype(int) of the integer-valued result
keeps the value), then clipped into 0..block_size // 2. -/
noncomputable def bin_edge (sample_rate block_size : Nat) (k : Nat) : ℤ :=
  min (max (roundHalfEven
      (band_edges k / ((sample_rate : ℝ) / (block_size : ℝ)))) 0)
    ((block_size / 2 : Nat) : ℤ)

theorem band_edges_mono (k : Nat) : band_edges k ≤ band_edges (k + 1) := by
  unfold band_edges
  apply mul_le_mul_of_nonneg_left _ (by norm_num : (0 : ℝ) ≤ 20)
  apply Real.rpow_le_rpow_of_exponent_le (by norm_num : (1 : ℝ) ≤ 1000)
  rw [div_le_div_iff_of_pos_right (by norm_num : (0 : ℝ) < 53)]
  push_cast
  linarith

end FFT

/-- C7 counterexample: at the accepted configuration sample_rate 48000,
block_size 1024 the frequency resolution is 46.875 Hz while the first
two band edges are 20 Hz and 20 * 1000 ^ (1/53) < 23.4375 Hz, so both
round to bin 0: bin_edges[1] = bin_edges[0], band 0 spans no bin, and
the strict-increase claim fails at i = 0. -/
theorem C7_counterexample_equal_bin_edges :
    FFT.bin_edge 48000 1024 0 = 0 ∧ FFT.bin_edge 48000 1024 1 = 0 := by
  constructor
  · unfold FFT.bin_edge FFT.band_edges
    push_cast
    rw [show (0 : ℝ) / 53 = 0 by norm_num, Real.rpow_zero, mul_one]
    rw [show (20 : ℝ) / ((48000 : ℝ) / (1024 : ℝ)) = 32 / 75 by norm_num]
    have hfl : ⌊(32 : ℝ) / 75⌋ = 0 := by
      rw [Int.floor_eq_iff]
      norm_num
    unfold roundHalfEven
    rw [hfl]
    norm_num
  · unfold FFT.bin_edge FFT.band_edges
    push_cast
    set x := (1000 : ℝ) ^ ((1 : ℝ) / 53) with hxdef
    have hx_pos : (0 : ℝ) < x := Real.rpow_pos_of_pos (by norm_num) _
    have hx53 : x ^ (53 : ℕ) = 1000 := by
      rw [hxdef, ← Real.rpow_natCast ((1000 : ℝ) ^ ((1 : ℝ) / 53)) 53,
        ← Real.rpow_mul (by norm_num : (0 : ℝ) ≤ 1000)]
      norm_num
    have hxlt : x < 75 / 64 := by
      by_contra hge
      push_neg at hge
      have hpow : ((75 : ℝ) / 64) ^ (53 : ℕ) ≤ x ^ (53 : ℕ) :=
        pow_le_pow_left₀ (by norm_num) hge 53
      rw [hx53] at hpow
      have : (1000 : ℝ) < ((75 : ℝ) / 64) ^ (53 : ℕ) := by norm_num
      linarith
    have hq_pos : 0 < 20 * x / ((48000 : ℝ) / 1024) := by positivity
    have hq_lt : 20 * x / ((48000 : ℝ) / 1024) < 1 / 2 := by
      rw [show (48000 : ℝ) / 1024 = 375 / 8 by norm_num,
        div_lt_iff₀ (by norm_num : (0 : ℝ) < 375 / 8)]
      nlinarith [hxlt]
    have hfl : ⌊20 * x / ((48000 : ℝ) / 1024)⌋ = 0 := by
      rw [Int.floor_eq_iff]
      constructor
      · push_cast
        linarith
      · push_cast
        linarith
    unfold roundHalfEven
    rw [hfl]
    rw [if_pos (by push_cast; linarith)]
    norm_num

/-- C7 (amended): for every accepted configuration (positive sample rate
and block size) the precomputed bin-edge sequence is non-decreasing;
strict increase and the at-least-one-bin property can fail at
construction (see the counterexample), and a span of one bin is only
enforced later inside process. -/
theorem C7_bin_edges_nondecreasing (sample_rate block_size : Nat)
    (hsr : 0 < sample_rate) (hbs : 0 < block_size) (k : Nat) :
    FFT.bin_edge sample_rate block_size k
      ≤ FFT.bin_edge sample_rate block_size (k + 1) := by
  unfold FFT.bin_edge
  have hres : (0 : ℝ) < (sample_rate : ℝ) / (block_size : ℝ) :=
    div_pos (by exact_mod_cast hsr) (by exact_mod_cast hbs)
  have hdiv : FFT.band_edges k / ((sample_rate : ℝ) / (block_size : ℝ))
      ≤ FFT.band_edges (k + 1) / ((sample_rate : ℝ) / (block_size : ℝ)) :=
    (div_le_div_iff_of_pos_right hres).mpr (FFT.band_edges_mono k)
  exact min_le_min (max_le_max (roundHalfEven_mono hdiv) (le_refl 0)) (le_refl _)

/-- Witness for C7: the non-decreasing property at 48 kHz, block 1024,
band index 5. -/
theorem C7_bin_edges_nondecreasing_witness :
    FFT.bin_edge 48000 1024 5 ≤ FFT.bin_edge 48000 1024 6 :=
  C7_bin_edges_nondecreasing 48000 1024 (by norm_num) (by norm_num) 5
